import Mathlib

/-!
Verification development for the Redis MCP server (`src/redis/src/index.ts`).

The server exposes Redis commands as MCP tools.  Each tool call is validated
against a Zod object schema and, on success, forwarded to the `redis` client;
the store's reply is rendered into a single text payload.  This file embeds:

* the JSON argument values and the Zod validation performed by the
  `*ArgumentsSchema.parse` calls (including `.optional()`, `.default()`,
  `.or(z.array(...))` and the stripping of unknown keys);
* an executable model of the external Redis store (strings, hashes, lists,
  sorted sets, pub/sub channel registry) sufficient for the commands the
  dispatcher issues — the store itself is an external collaborator, so its
  command semantics are modelled from the standard Redis behaviour the spec
  assumes (spec section 6);
* the `CallToolRequestSchema` dispatcher (`callTool`), one branch per tool,
  returning the thrown error or the response text, the post-state of the
  store, and the list of store commands issued;
* the `ListToolsRequestSchema` handler's advertised tool table;
* the reconnection strategy and the shutdown paths.
-/

namespace RedisMCP

/-- A JSON value as it appears in the `arguments` object of a tool call.
Numbers are modelled as integers: no claim depends on fractional values and
validation only inspects the type tag. -/
inductive JVal where
  | str (s : String)
  | num (n : Int)
  | bool (b : Bool)
  | arr (xs : List JVal)
  | null

/-- The raw `arguments` object: an association list of field name to value. -/
abbrev Args := List (String × JVal)

/-- First-match association-list lookup. -/
def alookup {α : Type} : List (String × α) → String → Option α
  | [], _ => none
  | (k, v) :: rest, key => if k = key then some v else alookup rest key

/-- Replace the binding for `key` (or append one). -/
def aset {α : Type} : List (String × α) → String → α → List (String × α)
  | [], key, v => [(key, v)]
  | (k, w) :: rest, key, v =>
    if k = key then (key, v) :: rest else (k, w) :: aset rest key v

/-- Drop any binding for `key`. -/
def aremove {α : Type} (l : List (String × α)) (key : String) : List (String × α) :=
  l.filter (fun p => !(p.1 == key))

/-- The field types occurring in the source's Zod schemas: `z.string()`,
`z.number()`, `z.boolean()` and `z.string().or(z.array(z.string()))`. -/
inductive FieldType where
  | string
  | number
  | boolean
  | stringOrArray
deriving DecidableEq, Repr

/-- Whether a field is required, `.optional()`, or carries a `.default(d)`. -/
inductive Requiredness where
  | required
  | optional
  | withDefault (d : JVal)

/-- One declared field of a Zod object schema. -/
structure FieldSpec where
  fname : String
  ftype : FieldType
  freq : Requiredness

/-- A Zod object schema is its ordered list of declared fields.  Unknown keys
are stripped, as with a plain (non-strict) `z.object`. -/
abbrev Schema := List FieldSpec

/-- Runtime type check a Zod field validator performs on a present value. -/
def checkType : FieldType → JVal → Bool
  | .string, .str _ => true
  | .number, .num _ => true
  | .boolean, .bool _ => true
  | .stringOrArray, .str _ => true
  | .stringOrArray, .arr xs =>
    xs.all (fun v => match v with | .str _ => true | _ => false)
  | _, _ => false

/-- Zod's rendering of the received value's type, used in mismatch messages. -/
def receivedName : JVal → String
  | .str _ => "string"
  | .num _ => "number"
  | .bool _ => "boolean"
  | .arr _ => "array"
  | .null => "null"

/-- The message attached to a failed type check (`"Expected ..., received ..."`
for primitive validators, `"Invalid input"` for the string-or-array union). -/
def typeErrorMsg (ft : FieldType) (v : JVal) : String :=
  match ft with
  | .string => "Expected string, received " ++ receivedName v
  | .number => "Expected number, received " ++ receivedName v
  | .boolean => "Expected boolean, received " ++ receivedName v
  | .stringOrArray => "Invalid input"

/-- The issue `field.parse` contributes for one declared field: `Required` if a
required field is absent, a type mismatch if a present value fails its check. -/
def fieldIssue (args : Args) (f : FieldSpec) : Option (String × String) :=
  match alookup args f.fname with
  | some v => if checkType f.ftype v then none else some (f.fname, typeErrorMsg f.ftype v)
  | none =>
    match f.freq with
    | .required => some (f.fname, "Required")
    | .optional => none
    | .withDefault _ => none

/-- Boolean form of "this declared field is violated by the arguments". -/
def violatesField (args : Args) (f : FieldSpec) : Bool :=
  match alookup args f.fname with
  | some v => !checkType f.ftype v
  | none =>
    match f.freq with
    | .required => true
    | .optional => false
    | .withDefault _ => false

/-- All issues of a parse, in declaration order. -/
def zodIssues (sch : Schema) (args : Args) : List (String × String) :=
  match sch with
  | [] => []
  | f :: rest =>
    match fieldIssue args f with
    | some i => i :: zodIssues rest args
    | none => zodIssues rest args

/-- Some declared field is required-but-absent or present-but-mistyped. -/
def hasViolation (sch : Schema) (args : Args) : Bool :=
  match sch with
  | [] => false
  | f :: rest => violatesField args f || hasViolation rest args

/-- The value a successful parse binds for one declared field (the given value,
or the declared default when absent); `none` for an absent optional field. -/
def parsedField (args : Args) (f : FieldSpec) : Option (String × JVal) :=
  match alookup args f.fname with
  | some v => some (f.fname, v)
  | none =>
    match f.freq with
    | .withDefault d => some (f.fname, d)
    | _ => none

/-- The typed object a successful parse produces: declared fields only
(unknown keys stripped), defaults filled in. -/
def parsedArgs (sch : Schema) (args : Args) : Args :=
  match sch with
  | [] => []
  | f :: rest =>
    match parsedField args f with
    | some kv => kv :: parsedArgs rest args
    | none => parsedArgs rest args

/-- `Schema.parse`: succeeds with the typed object, or fails atomically with
the list of issues (each naming the offending field path and the reason). -/
def zodParse (sch : Schema) (args : Args) : Except (List (String × String)) Args :=
  if zodIssues sch args = [] then .ok (parsedArgs sch args)
  else .error (zodIssues sch args)

/-- The message of the error the dispatcher's catch block throws for a
`ZodError`: `Invalid arguments: <path>: <message>, ...`. -/
def invalidArgumentsMessage (issues : List (String × String)) : String :=
  "Invalid arguments: " ++ String.intercalate ", " (issues.map (fun i => i.1 ++ ": " ++ i.2))

/-! The Zod schemas of `index.ts` (lines 33–146), in source order. -/

def SetArgumentsSchema : Schema :=
  [⟨"key", .string, .required⟩, ⟨"value", .string, .required⟩,
   ⟨"expireSeconds", .number, .optional⟩]

def GetArgumentsSchema : Schema := [⟨"key", .string, .required⟩]

def DeleteArgumentsSchema : Schema := [⟨"key", .stringOrArray, .required⟩]

def ListArgumentsSchema : Schema := [⟨"pattern", .string, .withDefault (.str "*")⟩]

def HSetArgumentsSchema : Schema :=
  [⟨"key", .string, .required⟩, ⟨"field", .string, .required⟩,
   ⟨"value", .string, .required⟩]

def HGetArgumentsSchema : Schema :=
  [⟨"key", .string, .required⟩, ⟨"field", .string, .required⟩]

def HGetAllArgumentsSchema : Schema := [⟨"key", .string, .required⟩]

def IncrArgumentsSchema : Schema := [⟨"key", .string, .required⟩]

def ExpireArgumentsSchema : Schema :=
  [⟨"key", .string, .required⟩, ⟨"seconds", .number, .required⟩]

def LPushArgumentsSchema : Schema :=
  [⟨"key", .string, .required⟩, ⟨"value", .stringOrArray, .required⟩]

def RPushArgumentsSchema : Schema :=
  [⟨"key", .string, .required⟩, ⟨"value", .stringOrArray, .required⟩]

def LPopArgumentsSchema : Schema := [⟨"key", .string, .required⟩]

def RPopArgumentsSchema : Schema := [⟨"key", .string, .required⟩]

def LRangeArgumentsSchema : Schema :=
  [⟨"key", .string, .required⟩, ⟨"start", .number, .required⟩,
   ⟨"stop", .number, .required⟩]

def ZAddArgumentsSchema : Schema :=
  [⟨"key", .string, .required⟩, ⟨"score", .number, .required⟩,
   ⟨"member", .string, .required⟩]

def ZRangeArgumentsSchema : Schema :=
  [⟨"key", .string, .required⟩, ⟨"min", .number, .required⟩,
   ⟨"max", .number, .required⟩, ⟨"withScores", .boolean, .optional⟩]

def ZRemArgumentsSchema : Schema :=
  [⟨"key", .string, .required⟩, ⟨"member", .stringOrArray, .required⟩]

def ZScoreArgumentsSchema : Schema :=
  [⟨"key", .string, .required⟩, ⟨"member", .string, .required⟩]

def ZRankArgumentsSchema : Schema :=
  [⟨"key", .string, .required⟩, ⟨"member", .string, .required⟩]

def PublishArgumentsSchema : Schema :=
  [⟨"channel", .string, .required⟩, ⟨"message", .string, .required⟩]

def SubscribeArgumentsSchema : Schema := [⟨"channel", .stringOrArray, .required⟩]

def UnsubscribeArgumentsSchema : Schema := [⟨"channel", .stringOrArray, .optional⟩]

def PubSubChannelsArgumentsSchema : Schema := [⟨"pattern", .string, .optional⟩]

/-! ## The external store

The Redis server is an external collaborator reached through the `redis`
client.  The model below gives executable semantics to exactly the commands
the dispatcher issues (spec section 6), over a finite state. -/

/-- One member of a sorted set together with its score. -/
structure ZEntry where
  score : Int
  member : String
deriving DecidableEq, Repr

/-- State of the external store: string keys (value and optional expiry set
via `SETEX`/`EXPIRE`), hashes, lists, sorted sets, and the pub/sub channel
registry (channel name to current subscriber count). -/
structure Store where
  strings : List (String × (String × Option Int))
  hashes : List (String × List (String × String))
  lists : List (String × List String)
  zsets : List (String × List ZEntry)
  channels : List (String × Nat)
deriving DecidableEq, Repr

def emptyStore : Store := ⟨[], [], [], [], []⟩

/-- Glob match of a Redis key pattern (`*` and `?` wildcards) over a string. -/
def globMatch : List Char → List Char → Bool
  | [], [] => true
  | '*' :: ps, [] => globMatch ps []
  | '*' :: ps, c :: cs => globMatch ps (c :: cs) || globMatch ('*' :: ps) cs
  | '?' :: ps, _ :: cs => globMatch ps cs
  | p :: ps, c :: cs => p == c && globMatch ps cs
  | _ :: _, [] => false
  | [], _ :: _ => false
termination_by ps cs => (ps.length, cs.length)

/-- `SET key value`: plain set, clearing any expiry. -/
def Store.set (st : Store) (k v : String) : Store :=
  { st with strings := aset st.strings k (v, none) }

/-- `SETEX key seconds value`: set with an expiry. -/
def Store.setEx (st : Store) (k : String) (secs : Int) (v : String) : Store :=
  { st with strings := aset st.strings k (v, some secs) }

/-- `GET key`: the stored string value, `null` when the key is absent. -/
def Store.get (st : Store) (k : String) : Option String :=
  (alookup st.strings k).map (fun p => p.1)

/-- Whether a key exists in the store, whatever its type. -/
def Store.hasKey (st : Store) (k : String) : Bool :=
  (alookup st.strings k).isSome || (alookup st.hashes k).isSome ||
    (alookup st.lists k).isSome || (alookup st.zsets k).isSome

/-- Remove a key from every table. -/
def Store.removeKey (st : Store) (k : String) : Store :=
  { strings := aremove st.strings k, hashes := aremove st.hashes k,
    lists := aremove st.lists k, zsets := aremove st.zsets k,
    channels := st.channels }

/-- Delete one key, reporting whether it existed. -/
def Store.delOne (st : Store) (k : String) : Nat × Store :=
  if st.hasKey k then (1, st.removeKey k) else (0, st)

/-- `DEL key ...`: delete the listed keys in order; the reply is the number of
keys that were actually removed. -/
def Store.del (st : Store) (ks : List String) : Nat × Store :=
  match ks with
  | [] => (0, st)
  | k :: rest =>
    let r := st.delOne k
    let rr := r.2.del rest
    (r.1 + rr.1, rr.2)

/-- All keys currently present, in table order. -/
def Store.keysList (st : Store) : List String :=
  st.strings.map (fun p => p.1) ++ st.hashes.map (fun p => p.1) ++
    st.lists.map (fun p => p.1) ++ st.zsets.map (fun p => p.1)

/-- `KEYS pattern`. -/
def Store.keysMatching (st : Store) (pat : String) : List String :=
  st.keysList.filter (fun k => globMatch pat.toList k.toList)

/-- `HSET key field value`. -/
def Store.hSet (st : Store) (k f v : String) : Store :=
  { st with hashes := aset st.hashes k (aset ((alookup st.hashes k).getD []) f v) }

/-- `HGET key field`. -/
def Store.hGet (st : Store) (k f : String) : Option String :=
  (alookup st.hashes k).bind (fun h => alookup h f)

/-- `HGETALL key`: all field/value pairs, empty for an absent key. -/
def Store.hGetAll (st : Store) (k : String) : List (String × String) :=
  (alookup st.hashes k).getD []

/-- `INCR key`: increment the integer value (an absent key counts as 0).  A
non-integer value is a store-side error, outside this embedding. -/
def Store.incr (st : Store) (k : String) : Int × Store :=
  let cur := ((st.get k).bind String.toInt?).getD 0
  let nv := cur + 1
  (nv, st.set k (toString nv))

/-- `EXPIRE key seconds`: true iff the key exists; records the expiry on a
string key. -/
def Store.expire (st : Store) (k : String) (secs : Int) : Bool × Store :=
  if st.hasKey k then
    (true,
      match alookup st.strings k with
      | some p => { st with strings := aset st.strings k (p.1, some secs) }
      | none => st)
  else (false, st)

/-- The list stored at a key (empty for an absent key). -/
def Store.listOf (st : Store) (k : String) : List String :=
  (alookup st.lists k).getD []

/-- Store a list value; Redis removes a list key that becomes empty. -/
def Store.setList (st : Store) (k : String) (l : List String) : Store :=
  if l = [] then { st with lists := aremove st.lists k }
  else { st with lists := aset st.lists k l }

/-- `LPUSH key v1 v2 ...`: each value in turn is inserted at the head, so the
head ends up holding the values in reverse argument order; the reply is the
new length. -/
def Store.lPush (st : Store) (k : String) (vs : List String) : Nat × Store :=
  let nl := vs.reverse ++ st.listOf k
  (nl.length, st.setList k nl)

/-- `RPUSH key v1 v2 ...`: append, reply is the new length. -/
def Store.rPush (st : Store) (k : String) (vs : List String) : Nat × Store :=
  let nl := st.listOf k ++ vs
  (nl.length, st.setList k nl)

/-- `LPOP key`. -/
def Store.lPop (st : Store) (k : String) : Option String × Store :=
  match st.listOf k with
  | [] => (none, st)
  | x :: rest => (some x, st.setList k rest)

/-- `RPOP key`. -/
def Store.rPop (st : Store) (k : String) : Option String × Store :=
  match st.listOf k with
  | [] => (none, st)
  | l => (l.getLast?, st.setList k l.dropLast)

/-- Redis index-range selection with negative-from-the-end indices, shared by
`LRANGE` and `ZRANGE`. -/
def rangeSlice {α : Type} (l : List α) (start stop : Int) : List α :=
  let n : Int := l.length
  let s := if start < 0 then max (n + start) 0 else start
  let e := min (if stop < 0 then n + stop else stop) (n - 1)
  if s > e then [] else ((l.drop s.toNat).take (e - s + 1).toNat)

/-- `LRANGE key start stop`. -/
def Store.lRange (st : Store) (k : String) (start stop : Int) : List String :=
  rangeSlice (st.listOf k) start stop

/-- The sorted set stored at a key (empty for an absent key). -/
def Store.zsetOf (st : Store) (k : String) : List ZEntry :=
  (alookup st.zsets k).getD []

/-- Score of a member within a sorted-set value. -/
def findScore (zs : List ZEntry) (m : String) : Option Int :=
  (zs.find? (fun e => e.member == m)).map (fun e => e.score)

/-- Insert a member, replacing its score when it already exists; the count is
1 for a newly added member, 0 for an update. -/
def upsertEntry : List ZEntry → ZEntry → Nat × List ZEntry
  | [], e => (1, [e])
  | x :: rest, e =>
    if x.member == e.member then (0, e :: rest)
    else
      let r := upsertEntry rest e
      (r.1, x :: r.2)

/-- Insert several members in order, summing the newly-added counts. -/
def upsertList : List ZEntry → List ZEntry → Nat × List ZEntry
  | zs, [] => (0, zs)
  | zs, e :: rest =>
    let r := upsertEntry zs e
    let rr := upsertList r.2 rest
    (r.1 + rr.1, rr.2)

/-- `ZADD key score member ...`: reply is the number of members newly added. -/
def Store.zAdd (st : Store) (k : String) (entries : List ZEntry) : Nat × Store :=
  let r := upsertList (st.zsetOf k) entries
  (r.1, { st with zsets := aset st.zsets k r.2 })

/-- `ZSCORE key member`. -/
def Store.zScore (st : Store) (k m : String) : Option Int :=
  findScore (st.zsetOf k) m

/-- Remove one member if present, reporting whether it was. -/
def zRemOne (zs : List ZEntry) (m : String) : Nat × List ZEntry :=
  if zs.any (fun e => e.member == m) then (1, zs.filter (fun e => !(e.member == m)))
  else (0, zs)

/-- Remove the listed members in order, counting actual removals. -/
def zRemList : List ZEntry → List String → Nat × List ZEntry
  | zs, [] => (0, zs)
  | zs, m :: rest =>
    ((zRemOne zs m).1 + (zRemList (zRemOne zs m).2 rest).1,
      (zRemList (zRemOne zs m).2 rest).2)

/-- `ZREM key member ...`: reply is the number of members actually removed. -/
def Store.zRem (st : Store) (k : String) (ms : List String) : Nat × Store :=
  let r := zRemList (st.zsetOf k) ms
  (r.1, { st with zsets := aset st.zsets k r.2 })

/-- Sorted-set order: ascending score, ties broken lexicographically. -/
def zleB (a b : ZEntry) : Bool :=
  decide (a.score < b.score ∨ (a.score = b.score ∧ a.member ≤ b.member))

def insertZ (e : ZEntry) : List ZEntry → List ZEntry
  | [] => [e]
  | x :: rest => if zleB e x then e :: x :: rest else x :: insertZ e rest

/-- Entries in sorted-set order. -/
def sortZ : List ZEntry → List ZEntry
  | [] => []
  | x :: rest => insertZ x (sortZ rest)

/-- `ZRANGE key min max` on the index-ordered entries. -/
def Store.zRangeEntries (st : Store) (k : String) (mn mx : Int) : List ZEntry :=
  rangeSlice (sortZ (st.zsetOf k)) mn mx

/-- `ZRANK key member`: 0-based position in sorted order. -/
def Store.zRank (st : Store) (k m : String) : Option Nat :=
  (sortZ (st.zsetOf k)).findIdx? (fun e => e.member == m)

/-- `PUBLISH channel message`: reply is the subscriber count of the channel. -/
def Store.publish (st : Store) (ch : String) (_msg : String) : Nat :=
  (alookup st.channels ch).getD 0

/-- `PUBSUB CHANNELS pattern`: channels with at least one subscriber matching
the pattern. -/
def Store.pubSubChannels (st : Store) (pat : String) : List String :=
  (st.channels.filter
    (fun p => decide (0 < p.2) && globMatch pat.toList p.1.toList)).map (fun p => p.1)

/-- The scalar-or-array shape of a dual-shape argument (`string | string[]`),
as the handler receives it from a successful parse. -/
inductive StrOrArr where
  | scalar (s : String)
  | array (xs : List String)
deriving DecidableEq, Repr

/-- How the `redis` client forwards a `string | string[]` argument on the
wire: a scalar becomes the single-element sequence, an array is sent as-is,
in order, without deduplication. -/
def StrOrArr.toList : StrOrArr → List String
  | .scalar s => [s]
  | .array xs => xs

/-- Client call `del(key)` with `key : string | string[]`. -/
def Client.del (st : Store) (key : StrOrArr) : Nat × Store :=
  st.del key.toList

/-- Client call `lPush(key, value)` with `value : string | string[]`. -/
def Client.lPush (st : Store) (k : String) (v : StrOrArr) : Nat × Store :=
  st.lPush k v.toList

/-- Client call `rPush(key, value)` with `value : string | string[]`. -/
def Client.rPush (st : Store) (k : String) (v : StrOrArr) : Nat × Store :=
  st.rPush k v.toList

/-- Client call `zRem(key, member)` with `member : string | string[]`. -/
def Client.zRem (st : Store) (k : String) (m : StrOrArr) : Nat × Store :=
  st.zRem k m.toList

/-! ## The dispatcher -/

/-- A store command as issued by a handler through the client (dual-shape
arguments are recorded in the shape the handler passed them). -/
inductive StoreCmd where
  | set (k v : String)
  | setEx (k : String) (secs : Int) (v : String)
  | get (k : String)
  | del (key : StrOrArr)
  | keys (pattern : String)
  | hSet (k f v : String)
  | hGet (k f : String)
  | hGetAll (k : String)
  | incr (k : String)
  | expire (k : String) (secs : Int)
  | lPush (k : String) (v : StrOrArr)
  | rPush (k : String) (v : StrOrArr)
  | lPop (k : String)
  | rPop (k : String)
  | lRange (k : String) (start stop : Int)
  | zAdd (k : String) (entries : List ZEntry)
  | zRange (k : String) (mn mx : Int) (withScores : Bool)
  | zRem (k : String) (m : StrOrArr)
  | zScore (k m : String)
  | zRank (k m : String)
  | publish (ch msg : String)
  | pubSubChannels (pattern : String)
deriving DecidableEq, Repr

/-- Outcome of one `CallToolRequest`: the thrown error message or the text of
the single `content` item, the store state afterwards, and the store commands
the handler issued. -/
structure CallOutcome where
  result : Except String String
  store : Store
  trace : List StoreCmd

/-- Read a string field from a parsed object. -/
def getStr (pa : Args) (k : String) : String :=
  match alookup pa k with
  | some (.str s) => s
  | _ => ""

/-- Read a number field from a parsed object. -/
def getNum (pa : Args) (k : String) : Int :=
  match alookup pa k with
  | some (.num n) => n
  | _ => 0

/-- Read an optional number field from a parsed object. -/
def getOptNum (pa : Args) (k : String) : Option Int :=
  match alookup pa k with
  | some (.num n) => some n
  | _ => none

/-- Read an optional boolean field from a parsed object. -/
def getOptBool (pa : Args) (k : String) : Option Bool :=
  match alookup pa k with
  | some (.bool b) => some b
  | _ => none

/-- Read an optional string field from a parsed object. -/
def getOptStr (pa : Args) (k : String) : Option String :=
  match alookup pa k with
  | some (.str s) => some s
  | _ => none

/-- Read a `string | string[]` field from a parsed object. -/
def getSOA (pa : Args) (k : String) : StrOrArr :=
  match alookup pa k with
  | some (.str s) => .scalar s
  | some (.arr xs) =>
    .array (xs.filterMap (fun v => match v with | .str s => some s | _ => none))
  | _ => .scalar ""

/-- JavaScript truthiness of a `number | undefined` value (`if (expireSeconds)`):
0 and `undefined` are falsy. -/
def truthyOptInt : Option Int → Bool
  | some n => !(n == 0)
  | none => false

/-- JavaScript truthiness of a `string | undefined` value: the empty string
and `undefined` are falsy. -/
def truthyOptStr : Option String → Bool
  | some s => !(s == "")
  | none => false

/-- Run one tool branch: parse the arguments with the branch's schema, and on
success run the handler.  A parse failure is the `ZodError` path of the
single catch block: the `Invalid arguments` error is thrown and the store is
never touched. -/
def withParsed (st : Store) (sch : Schema) (args : Args)
    (k : Args → String × Store × List StoreCmd) : CallOutcome :=
  match zodParse sch args with
  | .error issues => ⟨.error (invalidArgumentsMessage issues), st, []⟩
  | .ok pa =>
    let r := k pa
    ⟨.ok r.1, r.2.1, r.2.2⟩

def setHandler (st : Store) (pa : Args) : String × Store × List StoreCmd :=
  let key := getStr pa "key"
  let value := getStr pa "value"
  let expireSeconds := getOptNum pa "expireSeconds"
  if truthyOptInt expireSeconds then
    let e := expireSeconds.getD 0
    ("Successfully set key: " ++ key, st.setEx key e value, [.setEx key e value])
  else
    ("Successfully set key: " ++ key, st.set key value, [.set key value])

def getHandler (st : Store) (pa : Args) : String × Store × List StoreCmd :=
  let key := getStr pa "key"
  match st.get key with
  | none => ("Key not found: " ++ key, st, [.get key])
  | some v => (v, st, [.get key])

def deleteHandler (st : Store) (pa : Args) : String × Store × List StoreCmd :=
  let key := getSOA pa "key"
  match key with
  | .array ks =>
    let r := Client.del st (.array ks)
    ("Successfully deleted " ++ toString ks.length ++ " keys", r.2, [.del (.array ks)])
  | .scalar k =>
    let r := Client.del st (.scalar k)
    ("Successfully deleted key: " ++ k, r.2, [.del (.scalar k)])

def listHandler (st : Store) (pa : Args) : String × Store × List StoreCmd :=
  let pattern := getStr pa "pattern"
  let keys := st.keysMatching pattern
  (if keys.length > 0 then "Found keys:\n" ++ String.intercalate "\n" keys
   else "No keys found matching pattern", st, [.keys pattern])

def hsetHandler (st : Store) (pa : Args) : String × Store × List StoreCmd :=
  let key := getStr pa "key"
  let field := getStr pa "field"
  let value := getStr pa "value"
  ("Successfully set hash field " ++ field ++ " in key: " ++ key,
    st.hSet key field value, [.hSet key field value])

def hgetHandler (st : Store) (pa : Args) : String × Store × List StoreCmd :=
  let key := getStr pa "key"
  let field := getStr pa "field"
  match st.hGet key field with
  | none => ("Field " ++ field ++ " not found in hash key: " ++ key, st, [.hGet key field])
  | some v => (v, st, [.hGet key field])

def hgetallHandler (st : Store) (pa : Args) : String × Store × List StoreCmd :=
  let key := getStr pa "key"
  let hashData := st.hGetAll key
  if hashData.length = 0 then
    ("Hash key not found or empty: " ++ key, st, [.hGetAll key])
  else
    (String.intercalate "\n" (hashData.map (fun p => p.1 ++ ": " ++ p.2)), st, [.hGetAll key])

def incrHandler (st : Store) (pa : Args) : String × Store × List StoreCmd :=
  let key := getStr pa "key"
  let r := st.incr key
  ("Incremented key: " ++ key ++ ", new value: " ++ toString r.1, r.2, [.incr key])

def expireHandler (st : Store) (pa : Args) : String × Store × List StoreCmd :=
  let key := getStr pa "key"
  let seconds := getNum pa "seconds"
  let r := st.expire key seconds
  if r.1 then
    ("Successfully set expiration of " ++ toString seconds ++ " seconds for key: " ++ key,
      r.2, [.expire key seconds])
  else
    ("Failed to set expiration: key " ++ key ++ " does not exist", r.2, [.expire key seconds])

def lpushHandler (st : Store) (pa : Args) : String × Store × List StoreCmd :=
  let key := getStr pa "key"
  let value := getSOA pa "value"
  match value with
  | .array vs =>
    let r := Client.lPush st key (.array vs)
    ("成功添加到列表开头，新长度: " ++ toString r.1, r.2, [.lPush key (.array vs)])
  | .scalar v =>
    let r := Client.lPush st key (.scalar v)
    ("成功添加到列表开头，新长度: " ++ toString r.1, r.2, [.lPush key (.scalar v)])

def rpushHandler (st : Store) (pa : Args) : String × Store × List StoreCmd :=
  let key := getStr pa "key"
  let value := getSOA pa "value"
  match value with
  | .array vs =>
    let r := Client.rPush st key (.array vs)
    ("成功添加到列表末尾，新长度: " ++ toString r.1, r.2, [.rPush key (.array vs)])
  | .scalar v =>
    let r := Client.rPush st key (.scalar v)
    ("成功添加到列表末尾，新长度: " ++ toString r.1, r.2, [.rPush key (.scalar v)])

def lpopHandler (st : Store) (pa : Args) : String × Store × List StoreCmd :=
  let key := getStr pa "key"
  let r := st.lPop key
  match r.1 with
  | none => ("列表为空或不存在: " ++ key, r.2, [.lPop key])
  | some v => (v, r.2, [.lPop key])

def rpopHandler (st : Store) (pa : Args) : String × Store × List StoreCmd :=
  let key := getStr pa "key"
  let r := st.rPop key
  match r.1 with
  | none => ("列表为空或不存在: " ++ key, r.2, [.rPop key])
  | some v => (v, r.2, [.rPop key])

def lrangeHandler (st : Store) (pa : Args) : String × Store × List StoreCmd :=
  let key := getStr pa "key"
  let start := getNum pa "start"
  let stop := getNum pa "stop"
  let result := st.lRange key start stop
  if result.length = 0 then
    ("指定范围内没有元素或列表不存在: " ++ key, st, [.lRange key start stop])
  else
    (String.intercalate "\n" result, st, [.lRange key start stop])

def zaddHandler (st : Store) (pa : Args) : String × Store × List StoreCmd :=
  let key := getStr pa "key"
  let score := getNum pa "score"
  let member := getStr pa "member"
  let r := st.zAdd key [⟨score, member⟩]
  ("成功添加到有序集合，影响的成员数: " ++ toString r.1, r.2, [.zAdd key [⟨score, member⟩]])

def zrangeHandler (st : Store) (pa : Args) : String × Store × List StoreCmd :=
  let key := getStr pa "key"
  let mn := getNum pa "min"
  let mx := getNum pa "max"
  let withScores := getOptBool pa "withScores"
  if withScores = some true then
    let result := st.zRangeEntries key mn mx
    if result.length = 0 then
      ("指定范围内没有成员或有序集合不存在: " ++ key, st, [.zRange key mn mx true])
    else
      (String.intercalate "\n" (result.map (fun e => e.member ++ ": " ++ toString e.score)),
        st, [.zRange key mn mx true])
  else
    let result := (st.zRangeEntries key mn mx).map (fun e => e.member)
    if result.length = 0 then
      ("指定范围内没有成员或有序集合不存在: " ++ key, st, [.zRange key mn mx false])
    else
      (String.intercalate "\n" result, st, [.zRange key mn mx false])

def zremHandler (st : Store) (pa : Args) : String × Store × List StoreCmd :=
  let key := getStr pa "key"
  let member := getSOA pa "member"
  match member with
  | .array ms =>
    let r := Client.zRem st key (.array ms)
    ("从有序集合中移除了 " ++ toString r.1 ++ " 个成员: " ++ key, r.2, [.zRem key (.array ms)])
  | .scalar m =>
    let r := Client.zRem st key (.scalar m)
    ("从有序集合中移除了 " ++ toString r.1 ++ " 个成员: " ++ key, r.2, [.zRem key (.scalar m)])

def zscoreHandler (st : Store) (pa : Args) : String × Store × List StoreCmd :=
  let key := getStr pa "key"
  let member := getStr pa "member"
  match st.zScore key member with
  | none => ("成员在有序集合中不存在: " ++ key, st, [.zScore key member])
  | some r => ("分数: " ++ toString r, st, [.zScore key member])

def zrankHandler (st : Store) (pa : Args) : String × Store × List StoreCmd :=
  let key := getStr pa "key"
  let member := getStr pa "member"
  match st.zRank key member with
  | none => ("成员在有序集合中不存在: " ++ key, st, [.zRank key member])
  | some r => ("排名: " ++ toString r, st, [.zRank key member])

def publishHandler (st : Store) (pa : Args) : String × Store × List StoreCmd :=
  let channel := getStr pa "channel"
  let message := getStr pa "message"
  let subscriberCount := st.publish channel message
  ("消息已发布到频道 " ++ channel ++ "，有 " ++ toString subscriberCount ++ " 个订阅者接收到消息",
    st, [.publish channel message])

def pubsubChannelsHandler (st : Store) (pa : Args) : String × Store × List StoreCmd :=
  let pattern := getOptStr pa "pattern"
  let eff := if truthyOptStr pattern then pattern.getD "*" else "*"
  let channels := st.pubSubChannels eff
  if channels.length = 0 then
    ("没有找到活跃的频道" ++
        (if truthyOptStr pattern then "匹配模式 " ++ pattern.getD "" else ""),
      st, [.pubSubChannels eff])
  else
    ("活跃的频道:\n" ++ String.intercalate "\n" channels, st, [.pubSubChannels eff])

/-- The `CallToolRequestSchema` handler (lines 512–979): route on the tool
name, parse with the branch's schema, run the branch, or throw `Unknown tool`
for an unrecognized name. -/
def callTool (st : Store) (name : String) (args : Args) : CallOutcome :=
  if name = "set" then withParsed st SetArgumentsSchema args (setHandler st)
  else if name = "get" then withParsed st GetArgumentsSchema args (getHandler st)
  else if name = "delete" then withParsed st DeleteArgumentsSchema args (deleteHandler st)
  else if name = "list" then withParsed st ListArgumentsSchema args (listHandler st)
  else if name = "hset" then withParsed st HSetArgumentsSchema args (hsetHandler st)
  else if name = "hget" then withParsed st HGetArgumentsSchema args (hgetHandler st)
  else if name = "hgetall" then withParsed st HGetAllArgumentsSchema args (hgetallHandler st)
  else if name = "incr" then withParsed st IncrArgumentsSchema args (incrHandler st)
  else if name = "expire" then withParsed st ExpireArgumentsSchema args (expireHandler st)
  else if name = "lpush" then withParsed st LPushArgumentsSchema args (lpushHandler st)
  else if name = "rpush" then withParsed st RPushArgumentsSchema args (rpushHandler st)
  else if name = "lpop" then withParsed st LPopArgumentsSchema args (lpopHandler st)
  else if name = "rpop" then withParsed st RPopArgumentsSchema args (rpopHandler st)
  else if name = "lrange" then withParsed st LRangeArgumentsSchema args (lrangeHandler st)
  else if name = "zadd" then withParsed st ZAddArgumentsSchema args (zaddHandler st)
  else if name = "zrange" then withParsed st ZRangeArgumentsSchema args (zrangeHandler st)
  else if name = "zrem" then withParsed st ZRemArgumentsSchema args (zremHandler st)
  else if name = "zscore" then withParsed st ZScoreArgumentsSchema args (zscoreHandler st)
  else if name = "zrank" then withParsed st ZRankArgumentsSchema args (zrankHandler st)
  else if name = "publish" then withParsed st PublishArgumentsSchema args (publishHandler st)
  else if name = "pubsub_channels" then
    withParsed st PubSubChannelsArgumentsSchema args (pubsubChannelsHandler st)
  else ⟨.error ("Unknown tool: " ++ name), st, []⟩

/-- The names handled by the dispatcher, in branch order. -/
def toolNames : List String :=
  ["set", "get", "delete", "list", "hset", "hget", "hgetall", "incr", "expire",
   "lpush", "rpush", "lpop", "rpop", "lrange", "zadd", "zrange", "zrem",
   "zscore", "zrank", "publish", "pubsub_channels"]

/-- The schema each dispatcher branch validates with. -/
def schemaOf (name : String) : Option Schema :=
  if name = "set" then some SetArgumentsSchema
  else if name = "get" then some GetArgumentsSchema
  else if name = "delete" then some DeleteArgumentsSchema
  else if name = "list" then some ListArgumentsSchema
  else if name = "hset" then some HSetArgumentsSchema
  else if name = "hget" then some HGetArgumentsSchema
  else if name = "hgetall" then some HGetAllArgumentsSchema
  else if name = "incr" then some IncrArgumentsSchema
  else if name = "expire" then some ExpireArgumentsSchema
  else if name = "lpush" then some LPushArgumentsSchema
  else if name = "rpush" then some RPushArgumentsSchema
  else if name = "lpop" then some LPopArgumentsSchema
  else if name = "rpop" then some RPopArgumentsSchema
  else if name = "lrange" then some LRangeArgumentsSchema
  else if name = "zadd" then some ZAddArgumentsSchema
  else if name = "zrange" then some ZRangeArgumentsSchema
  else if name = "zrem" then some ZRemArgumentsSchema
  else if name = "zscore" then some ZScoreArgumentsSchema
  else if name = "zrank" then some ZRankArgumentsSchema
  else if name = "publish" then some PublishArgumentsSchema
  else if name = "pubsub_channels" then some PubSubChannelsArgumentsSchema
  else none

/-! ## Connection resilience and shutdown -/

def MAX_RETRIES : Nat := 5
def MIN_RETRY_DELAY : Nat := 1000
def MAX_RETRY_DELAY : Nat := 30000

/-- The `socket.reconnectStrategy` callback (lines 20–28): for a retry count
below the budget, the delay in milliseconds before the next attempt; at or
beyond the budget, an `Error` telling the client to give up, so no further
attempt is scheduled. -/
def reconnectStrategy (retries : Nat) : Except String Nat :=
  if retries ≥ MAX_RETRIES then .error "Max retries reached"
  else .ok (min (2 ^ retries * MIN_RETRY_DELAY) MAX_RETRY_DELAY)

/-- The distinct events the source wires to shutdown: `process.on('SIGINT')`,
`process.on('SIGTERM')`, the startup `catch` in `main`, and `main().catch`. -/
inductive ShutdownTrigger where
  | sigint
  | sigterm
  | startupFailure
  | fatalMainError
deriving DecidableEq, Repr

/-- Process state the shutdown path touches: whether the store client
connection is still open. -/
structure ProcState where
  clientOpen : Bool
deriving DecidableEq, Repr

/-- The `cleanup` function (lines 1015–1022): best-effort `quit()` of the
store client, then `process.exit(1)` — unconditionally status 1. -/
def cleanup (_p : ProcState) : ProcState × Nat :=
  (⟨false⟩, 1)

/-- Every shutdown trigger is wired to the same `cleanup` (lines 1010,
1025–1026, 1030): the pair returned is the client state and the exit code. -/
def onShutdown : ShutdownTrigger → ProcState → ProcState × Nat
  | .sigint, p => cleanup p
  | .sigterm, p => cleanup p
  | .startupFailure, p => cleanup p
  | .fatalMainError, p => cleanup p

/-! ## The advertised tool listing -/

/-- A property descriptor as it appears in a listed tool's `inputSchema.properties`.
Sixteen tools advertise JSON Schema descriptors (`{ type: ..., description: ... }`
or a `oneOf` of string and string-array); the five sorted-set tools instead
place the runtime Zod validator objects themselves (lines 411–474), which
serialize with a `_def` payload and no `type` field. -/
inductive AdvDesc where
  | typed (ty : String)
  | oneOfStringOrArray
  | zodString
  | zodNumber
  | zodBooleanOptional
  | zodStringOrArray
deriving DecidableEq, Repr

/-- One entry of the `ListToolsRequestSchema` response. -/
structure ToolEntry where
  name : String
  props : List (String × AdvDesc)
  required : List String
deriving DecidableEq, Repr

/-- The full tool table returned by the listing handler (lines 162–509),
in source order. -/
def listedTools : List ToolEntry :=
  [⟨"set", [("key", .typed "string"), ("value", .typed "string"),
      ("expireSeconds", .typed "number")], ["key", "value"]⟩,
   ⟨"get", [("key", .typed "string")], ["key"]⟩,
   ⟨"delete", [("key", .oneOfStringOrArray)], ["key"]⟩,
   ⟨"list", [("pattern", .typed "string")], []⟩,
   ⟨"hset", [("key", .typed "string"), ("field", .typed "string"),
      ("value", .typed "string")], ["key", "field", "value"]⟩,
   ⟨"hget", [("key", .typed "string"), ("field", .typed "string")], ["key", "field"]⟩,
   ⟨"hgetall", [("key", .typed "string")], ["key"]⟩,
   ⟨"incr", [("key", .typed "string")], ["key"]⟩,
   ⟨"expire", [("key", .typed "string"), ("seconds", .typed "number")], ["key", "seconds"]⟩,
   ⟨"lpush", [("key", .typed "string"), ("value", .oneOfStringOrArray)], ["key", "value"]⟩,
   ⟨"rpush", [("key", .typed "string"), ("value", .oneOfStringOrArray)], ["key", "value"]⟩,
   ⟨"lpop", [("key", .typed "string")], ["key"]⟩,
   ⟨"rpop", [("key", .typed "string")], ["key"]⟩,
   ⟨"lrange", [("key", .typed "string"), ("start", .typed "number"),
      ("stop", .typed "number")], ["key", "start", "stop"]⟩,
   ⟨"zadd", [("key", .zodString), ("score", .zodNumber), ("member", .zodString)],
      ["key", "score", "member"]⟩,
   ⟨"zrange", [("key", .zodString), ("min", .zodNumber), ("max", .zodNumber),
      ("withScores", .zodBooleanOptional)], ["key", "min", "max"]⟩,
   ⟨"zrem", [("key", .zodString), ("member", .zodStringOrArray)], ["key", "member"]⟩,
   ⟨"zscore", [("key", .zodString), ("member", .zodString)], ["key", "member"]⟩,
   ⟨"zrank", [("key", .zodString), ("member", .zodString)], ["key", "member"]⟩,
   ⟨"publish", [("channel", .typed "string"), ("message", .typed "string")],
      ["channel", "message"]⟩,
   ⟨"pubsub_channels", [("pattern", .typed "string")], []⟩]

/-- Whether a descriptor is a JSON Schema descriptor a client can read a type
from (as opposed to a serialized Zod validator object). -/
def isJsonDescriptor : AdvDesc → Bool
  | .typed _ => true
  | .oneOfStringOrArray => true
  | _ => false

/-- Whether an advertised descriptor correctly declares, as JSON Schema, the
type the dispatcher's validator actually checks. -/
def descMatchesType : AdvDesc → FieldType → Bool
  | .typed "string", .string => true
  | .typed "number", .number => true
  | .typed "boolean", .boolean => true
  | .oneOfStringOrArray, .stringOrArray => true
  | _, _ => false

/-- The required-field list of a validation schema. -/
def requiredFields (sch : Schema) : List String :=
  (sch.filter (fun f => match f.freq with | .required => true | _ => false)).map
    (fun f => f.fname)

/-- An advertised entry matches a validation schema when it lists the same
fields in order, each with a JSON descriptor of the validated type, and its
`required` list is exactly the schema's required fields. -/
def entryMatchesSchema (e : ToolEntry) (sch : Schema) : Bool :=
  (e.props.map (fun p => p.1) == sch.map (fun f => f.fname)) &&
    (sch.all (fun f =>
      match alookup e.props f.fname with
      | some d => descMatchesType d f.ftype
      | none => false)) &&
    (e.required == requiredFields sch)

/-- Whether a listed entry matches the dispatcher's schema for its name. -/
def entryMatchesDispatcher (e : ToolEntry) : Bool :=
  match schemaOf e.name with
  | some sch => entryMatchesSchema e sch
  | none => false

/-! ## Supporting lemmas -/

theorem fieldIssue_isSome (args : Args) (f : FieldSpec) :
    (fieldIssue args f).isSome = violatesField args f := by
  unfold fieldIssue violatesField
  cases alookup args f.fname with
  | some v => by_cases hc : checkType f.ftype v <;> simp [hc]
  | none => cases f.freq <;> simp

theorem zodIssues_nil_iff (sch : Schema) (args : Args) :
    zodIssues sch args = [] ↔ hasViolation sch args = false := by
  induction sch with
  | nil => simp [zodIssues, hasViolation]
  | cons f rest ih =>
    have h := fieldIssue_isSome args f
    cases hf : fieldIssue args f with
    | some i =>
      rw [hf] at h
      simp [zodIssues, hasViolation, hf, ← h]
    | none =>
      rw [hf] at h
      simp [zodIssues, hasViolation, hf, ← h, ih]

theorem withParsed_ok (st : Store) (sch : Schema) (args : Args)
    (k : Args → String × Store × List StoreCmd)
    (h : hasViolation sch args = false) :
    withParsed st sch args k =
      ⟨.ok (k (parsedArgs sch args)).1, (k (parsedArgs sch args)).2.1,
        (k (parsedArgs sch args)).2.2⟩ := by
  have hz : zodIssues sch args = [] := (zodIssues_nil_iff sch args).mpr h
  simp [withParsed, zodParse, hz]

theorem withParsed_violation (st : Store) (sch : Schema) (args : Args)
    (k : Args → String × Store × List StoreCmd)
    (h : hasViolation sch args = true) :
    withParsed st sch args k =
      ⟨.error (invalidArgumentsMessage (zodIssues sch args)), st, []⟩ := by
  have hz : ¬ zodIssues sch args = [] := by
    intro hc
    rw [(zodIssues_nil_iff sch args).mp hc] at h
    exact Bool.false_ne_true h
  simp [withParsed, zodParse, hz]

theorem withParsed_invalid_iff (st : Store) (sch : Schema) (args : Args)
    (k : Args → String × Store × List StoreCmd) :
    ((withParsed st sch args k).result =
        Except.error (invalidArgumentsMessage (zodIssues sch args)) ↔
      hasViolation sch args = true) ∧
    (hasViolation sch args = true →
      (withParsed st sch args k).trace = [] ∧ (withParsed st sch args k).store = st) := by
  cases hv : hasViolation sch args with
  | false =>
    rw [withParsed_ok st sch args k hv]
    simp
  | true =>
    rw [withParsed_violation st sch args k hv]
    simp

theorem alookup_aset_self {α : Type} (l : List (String × α)) (k : String) (v : α) :
    alookup (aset l k v) k = some v := by
  induction l with
  | nil => simp [aset, alookup]
  | cons p rest ih =>
    by_cases h : p.1 = k
    · simp [aset, h, alookup]
    · simp [aset, h, alookup, ih]

theorem findScore_upsert (zs : List ZEntry) (e : ZEntry) :
    findScore (upsertEntry zs e).2 e.member = some e.score := by
  induction zs with
  | nil => simp [upsertEntry, findScore, List.find?]
  | cons x rest ih =>
    by_cases h : x.member = e.member
    · simp [upsertEntry, h, findScore, List.find?]
    · have hb : (x.member == e.member) = false := by
        simp [h]
      simp only [upsertEntry, hb, Bool.false_eq_true, if_false]
      simpa [findScore, List.find?, hb] using ih

theorem findScore_none_iff (zs : List ZEntry) (m : String) :
    findScore zs m = none ↔ ∀ e ∈ zs, (e.member == m) = false := by
  simp [findScore, List.find?_eq_none]

theorem zRemOne_fst_le (zs : List ZEntry) (m : String) : (zRemOne zs m).1 ≤ 1 := by
  unfold zRemOne
  split <;> simp

theorem zRemOne_absent (zs : List ZEntry) (m : String) (h : findScore zs m = none) :
    zRemOne zs m = (0, zs) := by
  have ha : zs.any (fun e => e.member == m) = false := by
    rw [List.any_eq_false]
    intro e he
    simp [(findScore_none_iff zs m).mp h e he]
  simp [zRemOne, ha]

theorem findScore_zRemOne_absent (zs : List ZEntry) (m' m : String)
    (h : findScore zs m = none) : findScore (zRemOne zs m').2 m = none := by
  rw [findScore_none_iff] at h
  rw [findScore_none_iff]
  unfold zRemOne
  split
  · intro e he
    exact h e (List.mem_of_mem_filter he)
  · intro e he
    exact h e he

theorem zRemList_fst_le (ms : List String) (zs : List ZEntry) :
    (zRemList zs ms).1 ≤ ms.length := by
  induction ms generalizing zs with
  | nil => simp [zRemList]
  | cons m rest ih =>
    have h1 := zRemOne_fst_le zs m
    have h2 := ih (zRemOne zs m).2
    simp only [zRemList, List.length_cons]
    omega

theorem zRemList_absent_lt (ms : List String) (zs : List ZEntry) (m : String)
    (hm : m ∈ ms) (h : findScore zs m = none) :
    (zRemList zs ms).1 < ms.length := by
  induction ms generalizing zs with
  | nil => cases hm
  | cons m' rest ih =>
    simp only [zRemList, List.length_cons]
    rcases List.mem_cons.mp hm with he | hr
    · subst he
      rw [zRemOne_absent zs m h]
      show (0 : Nat) + (zRemList zs rest).1 < rest.length + 1
      have := zRemList_fst_le rest zs
      omega
    · have h1 := zRemOne_fst_le zs m'
      have h2 := ih (zRemOne zs m').2 hr (findScore_zRemOne_absent zs m' m h)
      omega

theorem filterMap_str_map (ks : List String) :
    (ks.map JVal.str).filterMap
      (fun v => match v with | .str s => some s | _ => none) = ks := by
  induction ks with
  | nil => rfl
  | cons k rest ih => simp [ih]

/-! ## Claims -/

/-- C1: for every retry count `i` with `0 ≤ i ≤ 4` the reconnection strategy
returns a delay of exactly `min(2^i * 1000, 30000)` milliseconds — 1000,
2000, 4000, 8000, 16000 ms for attempts 0 through 4 — and for every `i ≥ 5`
it returns an error (giving up) instead of a delay, so no 6th reconnection
attempt is ever scheduled. -/
theorem reconnect_strategy_schedule (i : Nat) :
    (i ≤ 4 → reconnectStrategy i = .ok (min (2 ^ i * 1000) 30000)) ∧
    (5 ≤ i → reconnectStrategy i = .error "Max retries reached") ∧
    (reconnectStrategy 0 = .ok 1000 ∧ reconnectStrategy 1 = .ok 2000 ∧
      reconnectStrategy 2 = .ok 4000 ∧ reconnectStrategy 3 = .ok 8000 ∧
      reconnectStrategy 4 = .ok 16000) := by
  refine ⟨?_, ?_, rfl, rfl, rfl, rfl, rfl⟩
  · intro h
    have hn : ¬ i ≥ MAX_RETRIES := by
      unfold MAX_RETRIES
      omega
    simp [reconnectStrategy, hn, MIN_RETRY_DELAY, MAX_RETRY_DELAY]
  · intro h
    have hy : i ≥ MAX_RETRIES := by
      unfold MAX_RETRIES
      omega
    simp [reconnectStrategy, hy]

/-- Witness for C1 at concrete retry counts 3 and 7. -/
theorem reconnect_strategy_schedule_witness :
    reconnectStrategy 3 = .ok (min (2 ^ 3 * 1000) 30000) ∧
    reconnectStrategy 7 = .error "Max retries reached" :=
  ⟨(reconnect_strategy_schedule 3).1 (by decide),
   (reconnect_strategy_schedule 7).2.1 (by decide)⟩

/-- C2 counterexample: a clean SIGINT shutdown exits with status 1, not 0 —
`cleanup` calls `process.exit(1)` unconditionally. -/
theorem sigint_exits_nonzero :
    (onShutdown .sigint ⟨true⟩).2 = 1 ∧ ¬ (onShutdown .sigint ⟨true⟩).2 = 0 :=
  ⟨rfl, by decide⟩

/-- C2 (amended): every shutdown trigger — SIGINT, SIGTERM, startup failure,
fatal error in `main` — runs the same `cleanup`, which closes the store
connection and exits with status 1; in particular the exit status is non-zero
for exhaustion-driven shutdown as claimed, but it is also non-zero (never 0)
for clean termination signals. -/
theorem shutdown_always_exits_one (t : ShutdownTrigger) (p : ProcState) :
    onShutdown t p = (⟨false⟩, 1) ∧ ¬ (onShutdown t p).2 = 0 := by
  cases t <;> exact ⟨rfl, one_ne_zero⟩

/-- C3: for every tool invocation, an `Invalid arguments` error (carrying the
offending field paths and reasons) is raised iff some declared field is
required-but-absent or present with a value failing its declared type check —
so unknown extra fields and valid edge values are accepted — and whenever
validation fails the store is untouched and no store command is issued. -/
theorem invalid_arguments_iff (st : Store) (name : String) (args : Args)
    (sch : Schema) (h : schemaOf name = some sch) :
    ((callTool st name args).result =
        Except.error (invalidArgumentsMessage (zodIssues sch args)) ↔
      hasViolation sch args = true) ∧
    (hasViolation sch args = true →
      (callTool st name args).trace = [] ∧ (callTool st name args).store = st) := by
  by_cases h1 : name = "set"
  · subst h1
    have h' : some SetArgumentsSchema = some sch := h
    injection h' with h2
    subst h2
    exact withParsed_invalid_iff st SetArgumentsSchema args (setHandler st)
  by_cases h2 : name = "get"
  · subst h2
    have h' : some GetArgumentsSchema = some sch := h
    injection h' with he
    subst he
    exact withParsed_invalid_iff st GetArgumentsSchema args (getHandler st)
  by_cases h3 : name = "delete"
  · subst h3
    have h' : some DeleteArgumentsSchema = some sch := h
    injection h' with he
    subst he
    exact withParsed_invalid_iff st DeleteArgumentsSchema args (deleteHandler st)
  by_cases h4 : name = "list"
  · subst h4
    have h' : some ListArgumentsSchema = some sch := h
    injection h' with he
    subst he
    exact withParsed_invalid_iff st ListArgumentsSchema args (listHandler st)
  by_cases h5 : name = "hset"
  · subst h5
    have h' : some HSetArgumentsSchema = some sch := h
    injection h' with he
    subst he
    exact withParsed_invalid_iff st HSetArgumentsSchema args (hsetHandler st)
  by_cases h6 : name = "hget"
  · subst h6
    have h' : some HGetArgumentsSchema = some sch := h
    injection h' with he
    subst he
    exact withParsed_invalid_iff st HGetArgumentsSchema args (hgetHandler st)
  by_cases h7 : name = "hgetall"
  · subst h7
    have h' : some HGetAllArgumentsSchema = some sch := h
    injection h' with he
    subst he
    exact withParsed_invalid_iff st HGetAllArgumentsSchema args (hgetallHandler st)
  by_cases h8 : name = "incr"
  · subst h8
    have h' : some IncrArgumentsSchema = some sch := h
    injection h' with he
    subst he
    exact withParsed_invalid_iff st IncrArgumentsSchema args (incrHandler st)
  by_cases h9 : name = "expire"
  · subst h9
    have h' : some ExpireArgumentsSchema = some sch := h
    injection h' with he
    subst he
    exact withParsed_invalid_iff st ExpireArgumentsSchema args (expireHandler st)
  by_cases h10 : name = "lpush"
  · subst h10
    have h' : some LPushArgumentsSchema = some sch := h
    injection h' with he
    subst he
    exact withParsed_invalid_iff st LPushArgumentsSchema args (lpushHandler st)
  by_cases h11 : name = "rpush"
  · subst h11
    have h' : some RPushArgumentsSchema = some sch := h
    injection h' with he
    subst he
    exact withParsed_invalid_iff st RPushArgumentsSchema args (rpushHandler st)
  by_cases h12 : name = "lpop"
  · subst h12
    have h' : some LPopArgumentsSchema = some sch := h
    injection h' with he
    subst he
    exact withParsed_invalid_iff st LPopArgumentsSchema args (lpopHandler st)
  by_cases h13 : name = "rpop"
  · subst h13
    have h' : some RPopArgumentsSchema = some sch := h
    injection h' with he
    subst he
    exact withParsed_invalid_iff st RPopArgumentsSchema args (rpopHandler st)
  by_cases h14 : name = "lrange"
  · subst h14
    have h' : some LRangeArgumentsSchema = some sch := h
    injection h' with he
    subst he
    exact withParsed_invalid_iff st LRangeArgumentsSchema args (lrangeHandler st)
  by_cases h15 : name = "zadd"
  · subst h15
    have h' : some ZAddArgumentsSchema = some sch := h
    injection h' with he
    subst he
    exact withParsed_invalid_iff st ZAddArgumentsSchema args (zaddHandler st)
  by_cases h16 : name = "zrange"
  · subst h16
    have h' : some ZRangeArgumentsSchema = some sch := h
    injection h' with he
    subst he
    exact withParsed_invalid_iff st ZRangeArgumentsSchema args (zrangeHandler st)
  by_cases h17 : name = "zrem"
  · subst h17
    have h' : some ZRemArgumentsSchema = some sch := h
    injection h' with he
    subst he
    exact withParsed_invalid_iff st ZRemArgumentsSchema args (zremHandler st)
  by_cases h18 : name = "zscore"
  · subst h18
    have h' : some ZScoreArgumentsSchema = some sch := h
    injection h' with he
    subst he
    exact withParsed_invalid_iff st ZScoreArgumentsSchema args (zscoreHandler st)
  by_cases h19 : name = "zrank"
  · subst h19
    have h' : some ZRankArgumentsSchema = some sch := h
    injection h' with he
    subst he
    exact withParsed_invalid_iff st ZRankArgumentsSchema args (zrankHandler st)
  by_cases h20 : name = "publish"
  · subst h20
    have h' : some PublishArgumentsSchema = some sch := h
    injection h' with he
    subst he
    exact withParsed_invalid_iff st PublishArgumentsSchema args (publishHandler st)
  by_cases h21 : name = "pubsub_channels"
  · subst h21
    have h' : some PubSubChannelsArgumentsSchema = some sch := h
    injection h' with he
    subst he
    exact withParsed_invalid_iff st PubSubChannelsArgumentsSchema args (pubsubChannelsHandler st)
  exfalso
  unfold schemaOf at h
  rw [if_neg h1, if_neg h2, if_neg h3, if_neg h4, if_neg h5, if_neg h6,
    if_neg h7, if_neg h8, if_neg h9, if_neg h10, if_neg h11, if_neg h12,
    if_neg h13, if_neg h14, if_neg h15, if_neg h16, if_neg h17, if_neg h18,
    if_neg h19, if_neg h20, if_neg h21] at h
  exact Option.noConfusion h

/-- Edge-value arguments for `zadd`: empty string key, zero score, plus an
unknown extra field. -/
def edgeArgs : Args :=
  [("key", .str ""), ("score", .num 0), ("member", .str "m"), ("extra", .bool true)]

/-- Witness for C3: the `zadd` branch at concrete edge-value arguments. -/
theorem invalid_arguments_iff_witness :
    ((callTool emptyStore "zadd" edgeArgs).result =
        Except.error (invalidArgumentsMessage (zodIssues ZAddArgumentsSchema edgeArgs)) ↔
      hasViolation ZAddArgumentsSchema edgeArgs = true) ∧
    (hasViolation ZAddArgumentsSchema edgeArgs = true →
      (callTool emptyStore "zadd" edgeArgs).trace = [] ∧
        (callTool emptyStore "zadd" edgeArgs).store = emptyStore) :=
  invalid_arguments_iff emptyStore "zadd" edgeArgs ZAddArgumentsSchema rfl

/-- C4 (evaluation of the listing bug): the listing has exactly one entry per
dispatcher tool name, names pairwise distinct, and every entry's `required`
list matches its validation schema; but the five sorted-set entries advertise
raw Zod validator objects as property descriptors — not JSON Schema type
descriptors — so exactly `zadd`, `zrange`, `zrem`, `zscore`, `zrank` fail to
match the validation the dispatcher applies, while the sixteen other entries
match it fully.  In particular the `zadd` entry's `key` property is the
validator object itself even though the dispatcher validates `key` as a
required string. -/
theorem listing_zod_descriptor_bug :
    (listedTools.map (fun e => e.name) = toolNames) ∧
    (listedTools.map (fun e => e.name)).Nodup ∧
    (listedTools.all (fun e =>
      match schemaOf e.name with
      | some sch => e.required == requiredFields sch
      | none => false) = true) ∧
    ((listedTools.filter (fun e => !(entryMatchesDispatcher e))).map (fun e => e.name)
      = ["zadd", "zrange", "zrem", "zscore", "zrank"]) ∧
    (∃ e ∈ listedTools, e.name = "zadd" ∧
      alookup e.props "key" = some AdvDesc.zodString ∧
      isJsonDescriptor AdvDesc.zodString = false) ∧
    schemaOf "zadd" = some ZAddArgumentsSchema ∧
    ZAddArgumentsSchema.map (fun f => f.ftype) = [.string, .number, .string] ∧
    requiredFields ZAddArgumentsSchema = ["key", "score", "member"] :=
  ⟨by decide, by decide, by decide, by decide, by decide, rfl, rfl, rfl⟩

/-- Every JSON value in the image of `JVal.str` passes the element check of
the string-array validator. -/
theorem all_str_map (ks : List String) :
    (ks.map JVal.str).all
      (fun v => match v with | JVal.str _ => true | _ => false) = true := by
  induction ks with
  | nil => rfl
  | cons k rest ih => simp [ih]

/-- Reduction of the `delete` branch on an array of string keys. -/
theorem callTool_delete_array (st : Store) (ks : List String) :
    callTool st "delete" [("key", JVal.arr (ks.map JVal.str))] =
      ⟨.ok ("Successfully deleted " ++ toString ks.length ++ " keys"),
        (Client.del st (.array ks)).2, [.del (.array ks)]⟩ := by
  have hv : hasViolation DeleteArgumentsSchema [("key", JVal.arr (ks.map JVal.str))] = false := by
    simp [hasViolation, violatesField, DeleteArgumentsSchema, alookup, checkType,
      all_str_map]
  have hD : callTool st "delete" [("key", JVal.arr (ks.map JVal.str))] =
      withParsed st DeleteArgumentsSchema [("key", JVal.arr (ks.map JVal.str))]
        (deleteHandler st) := rfl
  rw [hD, withParsed_ok st DeleteArgumentsSchema _ (deleteHandler st) hv]
  have hpa : parsedArgs DeleteArgumentsSchema [("key", JVal.arr (ks.map JVal.str))] =
      [("key", JVal.arr (ks.map JVal.str))] := rfl
  rw [hpa]
  have hg : getSOA [("key", JVal.arr (ks.map JVal.str))] "key" = StrOrArr.array ks := by
    show StrOrArr.array ((ks.map JVal.str).filterMap
      (fun v => match v with | .str s => some s | _ => none)) = StrOrArr.array ks
    rw [filterMap_str_map]
  have hh : deleteHandler st [("key", JVal.arr (ks.map JVal.str))] =
      ("Successfully deleted " ++ toString ks.length ++ " keys",
        (Client.del st (.array ks)).2, [.del (.array ks)]) := by
    simp [deleteHandler, hg]
  rw [hh]

/-- C5: for every dual-shape field the client forwards scalar input exactly
as the single-element sequence, forwards collection input in its original
order without reordering or deduplication, the `delete` dispatcher reaches
the same store state for a scalar key and for the one-element array of it,
and `delete` with an array of `n` keys reports the cardinality `n`. -/
theorem dual_shape_normalization :
    (∀ xs : List String, (StrOrArr.array xs).toList = xs) ∧
    (∀ s : String, (StrOrArr.scalar s).toList = [s]) ∧
    (∀ (st : Store) (k : String), Client.del st (.scalar k) = Client.del st (.array [k])) ∧
    (∀ (st : Store) (k v : String),
      Client.lPush st k (.scalar v) = Client.lPush st k (.array [v])) ∧
    (∀ (st : Store) (k v : String),
      Client.rPush st k (.scalar v) = Client.rPush st k (.array [v])) ∧
    (∀ (st : Store) (k m : String),
      Client.zRem st k (.scalar m) = Client.zRem st k (.array [m])) ∧
    (∀ (st : Store) (k : String),
      (callTool st "delete" [("key", JVal.str k)]).store =
        (callTool st "delete" [("key", JVal.arr [JVal.str k])]).store) ∧
    (∀ (st : Store) (ks : List String),
      (callTool st "delete" [("key", JVal.arr (ks.map JVal.str))]).result =
        .ok ("Successfully deleted " ++ toString ks.length ++ " keys")) := by
  refine ⟨fun xs => rfl, fun s => rfl, fun st k => rfl, fun st k v => rfl,
    fun st k v => rfl, fun st k m => rfl, fun st k => rfl, fun st ks => ?_⟩
  rw [callTool_delete_array]

/-- C9: the `delete` response text is a function of the validated input
alone — for every store state (keys present or absent), a scalar key yields
`Successfully deleted key: <key>` and an array of `n` keys yields
`Successfully deleted <n> keys`; the store's actual deletion count never
appears. -/
theorem delete_response_ignores_store (st : Store) (k : String) (ks : List String) :
    (callTool st "delete" [("key", JVal.str k)]).result =
      .ok ("Successfully deleted key: " ++ k) ∧
    (callTool st "delete" [("key", JVal.arr (ks.map JVal.str))]).result =
      .ok ("Successfully deleted " ++ toString ks.length ++ " keys") := by
  refine ⟨rfl, ?_⟩
  rw [callTool_delete_array]

/-- Reduction of the `get` branch: the response is the stored value, or the
not-found message, and the store is returned unchanged. -/
theorem callTool_get_red (st : Store) (key : String) :
    callTool st "get" [("key", JVal.str key)] =
      ⟨.ok ((st.get key).getD ("Key not found: " ++ key)), st, [.get key]⟩ := by
  have hD : callTool st "get" [("key", JVal.str key)] =
      withParsed st GetArgumentsSchema [("key", JVal.str key)] (getHandler st) := rfl
  have hv : hasViolation GetArgumentsSchema [("key", JVal.str key)] = false := rfl
  rw [hD, withParsed_ok st GetArgumentsSchema _ (getHandler st) hv]
  have hpa : parsedArgs GetArgumentsSchema [("key", JVal.str key)] =
      [("key", JVal.str key)] := rfl
  rw [hpa]
  have hh : getHandler st [("key", JVal.str key)] =
      ((st.get key).getD ("Key not found: " ++ key), st, [.get key]) := by
    cases hv : st.get key <;> simp [getHandler, getStr, alookup, hv]
  rw [hh]

/-- C6: `get` never mutates the store, and for an absent key it returns the
text `Key not found: <key>` (not an error); repeating the same `get` against
the resulting state returns the identical not-found message. -/
theorem get_absent_idempotent (st : Store) (key : String) :
    (callTool st "get" [("key", JVal.str key)]).store = st ∧
    (st.get key = none →
      (callTool st "get" [("key", JVal.str key)]).result =
        .ok ("Key not found: " ++ key) ∧
      (callTool ((callTool st "get" [("key", JVal.str key)]).store) "get"
          [("key", JVal.str key)]).result = .ok ("Key not found: " ++ key)) := by
  refine ⟨by rw [callTool_get_red], fun h => ⟨?_, ?_⟩⟩
  · rw [callTool_get_red, h]
    rfl
  · have h1 : (callTool st "get" [("key", JVal.str key)]).store = st := by
      rw [callTool_get_red]
    rw [h1, callTool_get_red, h]
    rfl

/-- Witness for C6: the empty store and the key `missing`. -/
theorem get_absent_idempotent_witness :
    (callTool emptyStore "get" [("key", JVal.str "missing")]).store = emptyStore ∧
    ((callTool emptyStore "get" [("key", JVal.str "missing")]).result =
        .ok ("Key not found: " ++ "missing") ∧
      (callTool ((callTool emptyStore "get" [("key", JVal.str "missing")]).store) "get"
          [("key", JVal.str "missing")]).result = .ok ("Key not found: " ++ "missing")) :=
  ⟨(get_absent_idempotent emptyStore "missing").1,
   (get_absent_idempotent emptyStore "missing").2 rfl⟩

/-- Reduction of the `zscore` branch. -/
theorem callTool_zscore_red (st : Store) (k m : String) :
    callTool st "zscore" [("key", JVal.str k), ("member", JVal.str m)] =
      ⟨.ok (match st.zScore k m with
            | none => "成员在有序集合中不存在: " ++ k
            | some r => "分数: " ++ toString r), st, [.zScore k m]⟩ := by
  have hD : callTool st "zscore" [("key", JVal.str k), ("member", JVal.str m)] =
      withParsed st ZScoreArgumentsSchema [("key", JVal.str k), ("member", JVal.str m)]
        (zscoreHandler st) := rfl
  have hv : hasViolation ZScoreArgumentsSchema
      [("key", JVal.str k), ("member", JVal.str m)] = false := rfl
  rw [hD, withParsed_ok st ZScoreArgumentsSchema _ (zscoreHandler st) hv]
  have hpa : parsedArgs ZScoreArgumentsSchema [("key", JVal.str k), ("member", JVal.str m)] =
      [("key", JVal.str k), ("member", JVal.str m)] := rfl
  rw [hpa]
  have hh : zscoreHandler st [("key", JVal.str k), ("member", JVal.str m)] =
      ((match st.zScore k m with
        | none => "成员在有序集合中不存在: " ++ k
        | some r => "分数: " ++ toString r), st, [.zScore k m]) := by
    cases hv : st.zScore k m <;> simp [zscoreHandler, getStr, alookup, hv]
  rw [hh]

/-- C7: after `zadd {key:"Z", score:5, member:"m"}`, invoking
`zscore {key:"Z", member:"m"}` succeeds and reports the score rendered as
`5` in the text payload (`分数: 5`), from any starting store state. -/
theorem zadd_zscore_roundtrip (st : Store) :
    (callTool ((callTool st "zadd" [("key", JVal.str "Z"), ("score", JVal.num 5),
        ("member", JVal.str "m")]).store) "zscore"
      [("key", JVal.str "Z"), ("member", JVal.str "m")]).result =
      .ok ("分数: " ++ toString (5 : Int)) := by
  have h1 : (callTool st "zadd" [("key", JVal.str "Z"), ("score", JVal.num 5),
      ("member", JVal.str "m")]).store =
      { st with zsets := aset st.zsets "Z" (upsertEntry (st.zsetOf "Z") ⟨5, "m"⟩).2 } := rfl
  rw [h1, callTool_zscore_red]
  have h2 : Store.zScore
      { st with zsets := aset st.zsets "Z" (upsertEntry (st.zsetOf "Z") ⟨5, "m"⟩).2 }
      "Z" "m" = some 5 := by
    unfold Store.zScore Store.zsetOf
    rw [alookup_aset_self]
    exact findScore_upsert (st.zsetOf "Z") ⟨5, "m"⟩
  rw [h2]

/-- C8: invoking `set` with `expireSeconds` equal to 0 takes the no-expiry
branch — the value is stored with a plain `SET`, no expiration is applied,
and the outcome is identical to omitting `expireSeconds` altogether. -/
theorem set_expire_zero_plain (st : Store) (k v : String) :
    callTool st "set" [("key", JVal.str k), ("value", JVal.str v),
        ("expireSeconds", JVal.num 0)] =
      callTool st "set" [("key", JVal.str k), ("value", JVal.str v)] ∧
    (callTool st "set" [("key", JVal.str k), ("value", JVal.str v),
        ("expireSeconds", JVal.num 0)]).trace = [StoreCmd.set k v] ∧
    (callTool st "set" [("key", JVal.str k), ("value", JVal.str v),
        ("expireSeconds", JVal.num 0)]).store = st.set k v :=
  ⟨rfl, rfl, rfl⟩

/-- C10: the `zrem` response reports the store's reply — the number of
members actually removed — and when some supplied member is absent from the
sorted set the reported count is strictly smaller than the input count. -/
theorem zrem_reports_store_count (st : Store) (k : String) (ms : List String) :
    (callTool st "zrem" [("key", JVal.str k), ("member", JVal.arr (ms.map JVal.str))]).result
      = .ok ("从有序集合中移除了 " ++ toString (st.zRem k ms).1 ++ " 个成员: " ++ k) ∧
    ((∃ m ∈ ms, st.zScore k m = none) → (st.zRem k ms).1 < ms.length) := by
  constructor
  · have hv : hasViolation ZRemArgumentsSchema
        [("key", JVal.str k), ("member", JVal.arr (ms.map JVal.str))] = false := by
      simp [hasViolation, violatesField, ZRemArgumentsSchema, alookup, checkType,
        all_str_map]
    have hD : callTool st "zrem" [("key", JVal.str k), ("member", JVal.arr (ms.map JVal.str))] =
        withParsed st ZRemArgumentsSchema
          [("key", JVal.str k), ("member", JVal.arr (ms.map JVal.str))]
          (zremHandler st) := rfl
    rw [hD, withParsed_ok st ZRemArgumentsSchema _ (zremHandler st) hv]
    have hpa : parsedArgs ZRemArgumentsSchema
        [("key", JVal.str k), ("member", JVal.arr (ms.map JVal.str))] =
        [("key", JVal.str k), ("member", JVal.arr (ms.map JVal.str))] := rfl
    rw [hpa]
    have hg : getSOA [("key", JVal.str k), ("member", JVal.arr (ms.map JVal.str))] "member" =
        StrOrArr.array ms := by
      show StrOrArr.array ((ms.map JVal.str).filterMap
        (fun v => match v with | .str s => some s | _ => none)) = StrOrArr.array ms
      rw [filterMap_str_map]
    have hh : zremHandler st [("key", JVal.str k), ("member", JVal.arr (ms.map JVal.str))] =
        ("从有序集合中移除了 " ++ toString (st.zRem k ms).1 ++ " 个成员: " ++ k,
          (Client.zRem st k (.array ms)).2, [.zRem k (.array ms)]) := by
      simp [zremHandler, hg, getStr, alookup, Client.zRem, StrOrArr.toList]
    rw [hh]
  · rintro ⟨m, hm, hnone⟩
    have hs : (st.zRem k ms).1 = (zRemList (st.zsetOf k) ms).1 := rfl
    rw [hs]
    exact zRemList_absent_lt ms (st.zsetOf k) m hm hnone

/-- Store holding the sorted set `Z = {a ↦ 1}`, used as the C10 witness. -/
def zremWitnessStore : Store := ⟨[], [], [], [("Z", [⟨1, "a"⟩])], []⟩

/-- Witness for C10: removing `["a", "b"]` from `Z = {a ↦ 1}` — member `b`
is absent, so the reported count (1) is strictly below the input count (2). -/
theorem zrem_reports_store_count_witness :
    (callTool zremWitnessStore "zrem" [("key", JVal.str "Z"),
        ("member", JVal.arr ((["a", "b"] : List String).map JVal.str))]).result
      = .ok ("从有序集合中移除了 " ++ toString (zremWitnessStore.zRem "Z" ["a", "b"]).1 ++
          " 个成员: " ++ "Z") ∧
    (zremWitnessStore.zRem "Z" ["a", "b"]).1 < (["a", "b"] : List String).length :=
  ⟨(zrem_reports_store_count zremWitnessStore "Z" ["a", "b"]).1,
   (zrem_reports_store_count zremWitnessStore "Z" ["a", "b"]).2 ⟨"b", by decide, rfl⟩⟩

end RedisMCP
